import Mathlib

/-!
Shallow embedding of the Paws account/quest client (`src/main.js`).

Network and filesystem effects are modelled by passing each operation's
outcome in as data (an `Except`/`Option` value standing for what the
HTTP call or the JSON/base64 decode would have produced); the control
flow around those outcomes is translated statement by statement from the
JavaScript source.  JavaScript exceptions are modelled with `Except`,
`undefined`/`null` with `Option`, and JS truthiness tests are translated
at each use site (e.g. `if (decodedPayload.exp)` is false for `exp = 0`).
-/

set_option autoImplicit false

/-- Decoded middle segment of a bearer token: a JSON object with an
optional numeric `exp` field (epoch seconds).  An absent `exp` models
`decodedPayload.exp === undefined`. -/
structure TokenPayload where
  exp : Option Int
deriving DecidableEq, Repr

/-- A bearer token, characterised by the outcome of decoding its middle
segment (`token.split(".")[1]`, base64-decoded and JSON-parsed):
`decoded = none` models any token for which that decode/parse throws. -/
structure Token where
  decoded : Option TokenPayload
deriving DecidableEq, Repr

/-- TokenManager.isExpired (src/main.js lines 200-224).  On decode
failure the catch block returns `true`; with a payload, the JS test
`if (decodedPayload.exp)` takes the expiry branch only when `exp` is
present and truthy (nonzero), in which case it returns `now > exp`;
otherwise the token is treated as perpetual and the result is `false`. -/
def isExpired (t : Token) (now : Int) : Bool :=
  match t.decoded with
  | none => true
  | some p =>
    match p.exp with
    | some e => if e = 0 then false else decide (now > e)
    | none => false

/-- The in-memory token map of TokenManager (`this.tokens`), keyed by
userId. -/
def TokenMap := List (Nat × Token)
deriving DecidableEq

/-- Object lookup `this.tokens[userId]`: `none` models `undefined`. -/
def lookupToken (m : TokenMap) (uid : Nat) : Option Token :=
  (List.find? (fun p => p.1 = uid) m).map (fun p => p.2)

/-- Object assignment `this.tokens[userId] = token`: replace the entry
for `uid` if present, append it otherwise. -/
def setToken (m : TokenMap) (uid : Nat) (tok : Token) : TokenMap :=
  match m with
  | [] => [(uid, tok)]
  | p :: rest => if p.1 = uid then (uid, tok) :: rest else p :: setToken rest uid tok

/-- Observable log events the claims talk about. -/
inductive LogEvent where
  | tokenSaved
  | persistError
deriving DecidableEq, Repr

/-- TokenManager.saveToken (src/main.js lines 190-198).  The in-memory
map is updated first; `persistOk = false` models `fs.writeFileSync`
throwing, in which case the catch block logs the error and the function
returns normally (the map update is kept, nothing is rethrown). -/
def saveToken (m : TokenMap) (uid : Nat) (tok : Token) (persistOk : Bool) :
    TokenMap × List LogEvent :=
  let m' := setToken m uid tok
  if persistOk then (m', [LogEvent.tokenSaved]) else (m', [LogEvent.persistError])

theorem lookupToken_setToken_self (m : TokenMap) (uid : Nat) (tok : Token) :
    lookupToken (setToken m uid tok) uid = some tok := by
  induction m with
  | nil => simp [setToken, lookupToken, List.find?]
  | cons p rest ih =>
    by_cases h : p.1 = uid
    · simp [setToken, h, lookupToken, List.find?]
    · simpa [setToken, h, lookupToken, List.find?] using ih

/-- ApiService.makeRequest (src/main.js lines 48-64), for a given
`maxRetries` encoded as the length of `outcomes`: entry `i` of
`outcomes` is what attempt `i+1`'s `axios(config)` call would produce
(`.ok r` a response, `.error e` a thrown error).  Result: the value
returned or error thrown by `makeRequest` (`.ok none` models falling out
of the `while` loop and returning `undefined`, reachable only when
`maxRetries = 0`), the number of attempts made, and the list of retry
delays logged by the per-failure warnings, in order. -/
def makeRequest {E R : Type} (outcomes : List (Except E R)) (retryDelay : Nat) :
    Except E (Option R) × Nat × List Nat :=
  match outcomes with
  | [] => (Except.ok none, 0, [])
  | [o] =>
    match o with
    | Except.ok r => (Except.ok (some r), 1, [])
    | Except.error e => (Except.error e, 1, [])
  | o :: o2 :: rest =>
    match o with
    | Except.ok r => (Except.ok (some r), 1, [])
    | Except.error _ =>
      let (res, n, ws) := makeRequest (o2 :: rest) retryDelay
      (res, n + 1, retryDelay :: ws)

/-- Result of PawsClient.ensureValidToken together with the observable
effects the claims mention: the token map after the call, the returned
token (`none` models returning `null`), whether
`apiService.authenticate` was invoked, and the log events emitted by
`saveToken`. -/
structure EnsureResult where
  tokens : TokenMap
  token : Option Token
  authCalled : Bool
  logs : List LogEvent
deriving DecidableEq

/-- PawsClient.ensureValidToken (src/main.js lines 465-482).
`authOutcome` is what `apiService.authenticate(accountData)` would
return: `some t` models `{success:true, token:t, ...}`, `none` models
`{success:false, error}`.  `persistOk` is threaded into `saveToken`.  A
cached, non-expired token is returned without authenticating; otherwise
the code authenticates, returns `null` on failure, and on success saves
then returns the new token. -/
def ensureValidToken (m : TokenMap) (uid : Nat) (now : Int)
    (authOutcome : Option Token) (persistOk : Bool) : EnsureResult :=
  match lookupToken m uid with
  | some t =>
    if isExpired t now then
      match authOutcome with
      | none => ⟨m, none, true, []⟩
      | some tk =>
        let (m', logs) := saveToken m uid tk persistOk
        ⟨m', some tk, true, logs⟩
    else ⟨m, some t, false, []⟩
  | none =>
    match authOutcome with
    | none => ⟨m, none, true, []⟩
    | some tk =>
      let (m', logs) := saveToken m uid tk persistOk
      ⟨m', some tk, true, logs⟩

/-- Progress sub-object of a quest as returned by the quests-list
endpoint. -/
structure QuestProgress where
  claimed : Bool
deriving DecidableEq, Repr

/-- A quest from the quests-list endpoint: `{_id, title, rewards[],
progress}`.  Rewards are kept as their `amount` fields, the only part
the code reads. -/
structure Quest where
  id : Nat
  title : String
  rewards : List Int
  progress : QuestProgress
deriving DecidableEq, Repr

/-- The JSON body field `data` of a completed-quest response, as the code
discriminates it: the strict comparisons `data === true` and
`data === false` match only the boolean literals, and `other` stands for
every other value (reward payloads, `undefined`, ...). -/
inductive BodyData where
  | btrue
  | bfalse
  | other
deriving DecidableEq, Repr

/-- Destructured completed-quest response:
`const { status, data: { success, data } } = response`. -/
structure CompleteResp where
  status : Nat
  success : Bool
  data : BodyData
deriving DecidableEq, Repr

/-- Value returned by QuestManager.completeQuest, as its callers
discriminate it: `completed d` is `{success:true, data:d}` (service
success flag set), `needsClaim` is `{success:true, needsClaim:true}`,
and `failed warned` is `{success:false, error}` where `warned` records
whether the "Requirements not met" warning was logged (`data === false`). -/
inductive CompleteResult where
  | completed (d : BodyData)
  | needsClaim
  | failed (warned : Bool)
deriving DecidableEq, Repr

/-- QuestManager.completeQuest (src/main.js lines 253-284).  `resp` is
what `makeRequest` for the completion POST would produce (`.error`
models the throw after exhausted retries, caught by the catch block). -/
def completeQuest (resp : Except Unit CompleteResp) : CompleteResult :=
  match resp with
  | Except.error _ => CompleteResult.failed false
  | Except.ok r =>
    if (r.status = 200 ∨ r.status = 201) ∧ r.success then
      CompleteResult.completed r.data
    else if (r.status = 200 ∨ r.status = 201) ∧ r.data = BodyData.btrue then
      CompleteResult.needsClaim
    else
      CompleteResult.failed (r.data = BodyData.bfalse)

/-- QuestManager.claimQuest (src/main.js lines 286-306), returning its
`success` flag.  `resp` is the claim POST's outcome; `.ok none` models
`makeRequest` returning `undefined` (the `if (response)` test failing).
With a truthy response the code evaluates
`questData.rewards[0].amount` before returning success; on an empty
rewards list `rewards[0]` is `undefined` and the member access throws,
landing in the catch block which returns `{success:false}`. -/
def claimQuest (resp : Except Unit (Option Unit)) (questData : Quest) : Bool :=
  match resp with
  | Except.error _ => false
  | Except.ok none => false
  | Except.ok (some _) => decide (questData.rewards ≠ [])

/-- Per-quest environment: the transport outcomes of the completion and
claim calls for that quest. -/
structure QuestEnv where
  completeResp : Except Unit CompleteResp
  claimResp : Except Unit (Option Unit)

/-- Terminal state of one quest's processing, in the spec's state-machine
vocabulary: `completed` is the self-claiming success path, `done` is a
successful claim after `needsClaim`, `skipped` is the
requirements-not-met warning path, `failed` covers every other error
path. -/
inductive QuestState where
  | completed
  | done
  | skipped
  | failed
deriving DecidableEq, Repr

/-- QuestManager.processQuest (src/main.js lines 326-343): number of
`claimQuest` invocations made for this quest, and the terminal state. -/
def processQuest (q : Quest) (env : QuestEnv) : Nat × QuestState :=
  match completeQuest env.completeResp with
  | CompleteResult.completed _ => (0, QuestState.completed)
  | CompleteResult.failed warned =>
    (0, if warned then QuestState.skipped else QuestState.failed)
  | CompleteResult.needsClaim =>
    if claimQuest env.claimResp q then (1, QuestState.done)
    else (1, QuestState.failed)

/-- One network request issued by the client, tagged with the endpoint
(quest requests carry the quest id sent in the body). -/
inductive NetCall where
  | auth
  | userInfo
  | wallet
  | questsList
  | questComplete (id : Nat)
  | questClaim (id : Nat)
deriving DecidableEq, Repr

/-- Trace of one quest's processing: the completion POST, followed by the
claim POST exactly when `completeQuest` reported `needsClaim`. -/
def processQuestNet (q : Quest) (env : QuestEnv) : List NetCall :=
  NetCall.questComplete q.id ::
    (match completeQuest env.completeResp with
     | CompleteResult.needsClaim => [NetCall.questClaim q.id]
     | _ => [])

/-- QuestManager.getQuestsList (src/main.js lines 233-251): `svc` is the
service's quest list when the GET yields HTTP 200 with the success flag
(`none` models every failure path); a successful result is filtered to
the quests with `progress.claimed` false. -/
def getQuestsList (svc : Option (List Quest)) : Option (List Quest) :=
  svc.map (List.filter (fun q => !q.progress.claimed))

/-- The `for (const quest of questsResult.data)` loop of
QuestManager.processQuests: network trace and the list of quests handed
to `processQuest` (hence to `completeQuest`), with `qenv i` the
environment of the `i`-th iteration. -/
def processQuestsLoop (qs : List Quest) (qenv : Nat → QuestEnv) (i : Nat) :
    List NetCall × List Quest :=
  match qs with
  | [] => ([], [])
  | q :: rest =>
    let (tr, ps) := processQuestsLoop rest qenv (i + 1)
    (processQuestNet q (qenv i) ++ tr, q :: ps)

/-- Result of QuestManager.processQuests: the full network trace (the
quests-list GET, then the per-quest calls) and the quests passed to
`completeQuest`. -/
structure QuestsRun where
  trace : List NetCall
  passed : List Quest
deriving DecidableEq

/-- QuestManager.processQuests (src/main.js lines 308-324).  A failed
listing is logged and the function returns with no quest processed. -/
def processQuests (svc : Option (List Quest)) (qenv : Nat → QuestEnv) : QuestsRun :=
  match getQuestsList svc with
  | none => ⟨[NetCall.questsList], []⟩
  | some qs =>
    let (tr, ps) := processQuestsLoop qs qenv 0
    ⟨NetCall.questsList :: tr, ps⟩

/-- `allocationData.hamster` shape, and its `?? {initial:0, converted:0}`
default. -/
structure HamsterAlloc where
  initial : Int
  converted : Int
deriving DecidableEq, Repr

/-- `allocationData.telegram` shape. -/
structure TelegramAlloc where
  premium : Bool
  age : Int
  year : Int
  converted : Int
deriving DecidableEq, Repr

/-- `allocationData.paws` shape. -/
structure PawsAlloc where
  converted : Int
deriving DecidableEq, Repr

/-- `allocationData.dogs` shape. -/
structure DogsAlloc where
  initial : Int
  converted : Int
  percent : Int
deriving DecidableEq, Repr

/-- `allocationData.notcoin` shape (`createAt` is nullable). -/
structure NotcoinAlloc where
  initial : Int
  converted : Int
  createAt : Option String
deriving DecidableEq, Repr

/-- `allocationData` in the raw payload: every sub-field may be absent. -/
structure AllocationData where
  hamster : Option HamsterAlloc
  telegram : Option TelegramAlloc
  paws : Option PawsAlloc
  dogs : Option DogsAlloc
  notcoin : Option NotcoinAlloc
  total : Option Int
deriving DecidableEq, Repr

/-- `gameData` in the raw payload. -/
structure GameData where
  balance : Int
deriving DecidableEq, Repr

/-- `userData` (bound as `userInfo`) in the raw payload; `wallet` is
absent/null when no wallet is linked. -/
structure UserInfoData where
  username : String
  firstname : String
  wallet : Option String
deriving DecidableEq, Repr

/-- `claimStreakData` in the raw payload; both fields read through
optional chaining, so each may be absent on its own. -/
structure ClaimStreakData where
  lastClaimDate : Option String
  claimStreak : Option Int
deriving DecidableEq, Repr

/-- The raw per-account payload handed to `extractUserData` (position 1
of the auth response's `data`, or the body of `GET /user`).  The service
does not guarantee any of the four top-level objects. -/
structure RawUserData where
  gameData : Option GameData
  userData : Option UserInfoData
  claimStreakData : Option ClaimStreakData
  allocationData : Option AllocationData
deriving DecidableEq, Repr

/-- Normalized claim-streak pair of the profile; the fields stay absent
(`undefined`) when `claimStreakData` or the inner field is missing. -/
structure ClaimStreak where
  lastClaimDate : Option String
  currentStreak : Option Int
deriving DecidableEq, Repr

/-- Normalized allocation aggregate of the profile, after the `??`
defaults. -/
structure Allocation where
  hamster : HamsterAlloc
  telegram : TelegramAlloc
  paws : PawsAlloc
  dogs : DogsAlloc
  notcoin : NotcoinAlloc
  total : Int
deriving DecidableEq, Repr

/-- The normalized account profile built by `extractUserData`. -/
structure AccountProfile where
  balance : Int
  username : String
  firstname : String
  wallet : Option String
  claimStreak : ClaimStreak
  allocation : Allocation
deriving DecidableEq, Repr

/-- ApiService.extractUserData (src/main.js lines 94-131).  The function
destructures `const { gameData, userData: userInfo } = userData` and
then reads `gameData.balance` and `userInfo.username` with plain member
access: when either object is absent that access throws a TypeError
(modelled as `.error ()`, caught by the caller's try block).  Claim
streak uses optional chaining (absent stays absent) and every allocation
sub-field gets a `??` zero-value default. -/
def extractUserData (u : RawUserData) : Except Unit AccountProfile :=
  match u.gameData, u.userData with
  | some g, some ui =>
    Except.ok
      ⟨g.balance, ui.username, ui.firstname, ui.wallet,
        ⟨(u.claimStreakData.bind (fun c => c.lastClaimDate)),
         (u.claimStreakData.bind (fun c => c.claimStreak))⟩,
        ⟨((u.allocationData.bind (fun a => a.hamster)).getD ⟨0, 0⟩),
         ((u.allocationData.bind (fun a => a.telegram)).getD ⟨false, 0, 0, 0⟩),
         ((u.allocationData.bind (fun a => a.paws)).getD ⟨0⟩),
         ((u.allocationData.bind (fun a => a.dogs)).getD ⟨0, 0, 0⟩),
         ((u.allocationData.bind (fun a => a.notcoin)).getD ⟨0, 0, none⟩),
         ((u.allocationData.bind (fun a => a.total)).getD 0)⟩⟩
  | _, _ => Except.error ()

/-- Everything the outside world decides for one account's pass through
PawsClient.processAccount: the outcome of parsing the credential blob
(`JSON.parse(decodeURIComponent(accountData.split("user=")[1]...))`,
`none` when it throws), what `authenticate` would return, whether the
token-cache write would succeed, what `getUserInfo` would return, the
service's quest list, and the per-quest transport outcomes. -/
structure AccountEnv where
  parsed : Option (Nat × String)
  authOutcome : Option Token
  persistOk : Bool
  userInfoOutcome : Option AccountProfile
  svcQuests : Option (List Quest)
  qenv : Nat → QuestEnv

/-- PawsClient.processAccount (src/main.js lines 388-463).  The blob is
parsed outside any try/catch, so a parse failure throws out of the
function (`.error ()`).  Otherwise: `ensureValidToken` (issuing the auth
call only when it authenticates); a `null` token returns early; then the
`GET /user`, a wallet-link POST only when the profile fetch succeeded
with a falsy wallet, and quest processing regardless of profile fetch
success. -/
def processAccount (m : TokenMap) (env : AccountEnv) (now : Int) :
    Except Unit (TokenMap × List NetCall) :=
  match env.parsed with
  | none => Except.error ()
  | some (uid, _) =>
    let er := ensureValidToken m uid now env.authOutcome env.persistOk
    let authTrace := if er.authCalled then [NetCall.auth] else []
    match er.token with
    | none => Except.ok (er.tokens, authTrace)
    | some _ =>
      let walletTrace :=
        match env.userInfoOutcome with
        | some prof => if prof.wallet.isNone then [NetCall.wallet] else []
        | none => []
      let qr := processQuests env.svcQuests env.qenv
      Except.ok (er.tokens, authTrace ++ [NetCall.userInfo] ++ walletTrace ++ qr.trace)

/-- Outcome of the `for (let i = 0; ...)` account loop of one cycle of
PawsClient.main: final token map, concatenated network trace, number of
accounts whose processing ran to completion, and whether an exception
escaped the loop (aborting it). -/
structure CycleResult where
  tokens : TokenMap
  trace : List NetCall
  accountsProcessed : Nat
  crashed : Bool
deriving DecidableEq

/-- The account loop of PawsClient.main (src/main.js lines 531-536):
accounts are processed strictly in order; the first exception thrown by
`processAccount` propagates and ends the loop (and the cycle) at once. -/
def runCycle (m : TokenMap) (envs : List AccountEnv) (now : Int) : CycleResult :=
  match envs with
  | [] => ⟨m, [], 0, false⟩
  | e :: rest =>
    match processAccount m e now with
    | Except.error _ => ⟨m, [], 0, true⟩
    | Except.ok (m', tr) =>
      let c := runCycle m' rest now
      ⟨c.tokens, tr ++ c.trace, c.accountsProcessed + 1, c.crashed⟩

/-- PawsClient.validateWalletFile (src/main.js lines 371-386), over the
already-read wallet and data line lists: false exactly on a length
mismatch. -/
def validateWalletFile (wallets dataLines : List String) : Bool :=
  wallets.length = dataLines.length

/-- Observable outcome of one run of PawsClient.main up to the end of its
first cycle: the exit code if the process exited (`process.exit(1)` on
validation failure, and exit 1 via the top-level
`client.main().catch` when an exception escapes the account loop),
the network trace issued, and how many accounts completed processing. -/
structure MainResult where
  exitCode : Option Nat
  trace : List NetCall
  accountsProcessed : Nat
deriving DecidableEq

/-- PawsClient.main (src/main.js lines 515-540) through its first cycle,
together with the process-level catch (lines 544-547): a wallet/data
count mismatch exits with status 1 before any network call; otherwise
the account loop runs, and an exception escaping it reaches the
top-level handler which logs and exits with status 1. -/
def mainModel (wallets dataLines : List String) (m : TokenMap)
    (envs : List AccountEnv) (now : Int) : MainResult :=
  if validateWalletFile wallets dataLines then
    let c := runCycle m envs now
    ⟨if c.crashed then some 1 else none, c.trace, c.accountsProcessed⟩
  else
    ⟨some 1, [], 0⟩

/-- Ids sent by completion POSTs in a network trace. -/
def completeCallIds (trace : List NetCall) : List Nat :=
  trace.filterMap (fun c =>
    match c with
    | NetCall.questComplete i => some i
    | _ => none)

/-- C3 (counterexample): a token whose payload carries the field
`exp = 0` is "a token whose middle segment decodes to a payload carrying
an `exp` field", and at `now = 1` we have `now > exp`, so the claim
demands `isExpired = true`; but the JS truthiness test
`if (decodedPayload.exp)` rejects `0`, and the code returns `false`
(perpetual). -/
theorem isExpired_exp_zero_counterexample :
    isExpired ⟨some ⟨some 0⟩⟩ 1 = false ∧ (1 : Int) > 0 := by
  constructor
  · rfl
  · decide

/-- C3 (amended): for a payload carrying a nonzero `exp`, `isExpired` is
true exactly when `now > exp`; an `exp` equal to `0` is falsy in JS and
is treated like an absent field (perpetual, result false); a payload
without `exp` yields false; a token whose middle segment fails to decode
yields true. -/
theorem isExpired_spec (p : TokenPayload) (now : Int) :
    (∀ e : Int, p.exp = some e → e ≠ 0 →
      isExpired ⟨some p⟩ now = decide (now > e)) ∧
    (p.exp = some 0 → isExpired ⟨some p⟩ now = false) ∧
    (p.exp = none → isExpired ⟨some p⟩ now = false) ∧
    isExpired ⟨none⟩ now = true := by
  refine ⟨?_, ?_, ?_, rfl⟩
  · intro e he hne
    simp [isExpired, he, hne]
  · intro he
    simp [isExpired, he]
  · intro he
    simp [isExpired, he]

/-- C3 witness: a token expiring at epoch 5 is expired at `now = 6` and
not at `now = 4`; both follow from `isExpired_spec`. -/
theorem isExpired_spec_witness :
    isExpired ⟨some ⟨some 5⟩⟩ 6 = true ∧ isExpired ⟨some ⟨some 5⟩⟩ 4 = false := by
  have h6 := (isExpired_spec ⟨some 5⟩ 6).1 5 rfl (by decide)
  have h4 := (isExpired_spec ⟨some 5⟩ 4).1 5 rfl (by decide)
  refine ⟨?_, ?_⟩
  · rw [h6]; decide
  · rw [h4]; decide

/-- C8: `makeRequest` with three configured attempts makes at most 3
attempts; a success on any attempt is returned to the caller at once
(with the 5s retry delay logged before each retried attempt); when all
three attempts fail, the third attempt's error is propagated. -/
theorem makeRequest_retry_spec (E R : Type) (o1 o2 o3 : Except E R) :
    (makeRequest [o1, o2, o3] 5000).2.1 ≤ 3 ∧
    (∀ r, o1 = Except.ok r →
      makeRequest [o1, o2, o3] 5000 = (Except.ok (some r), 1, [])) ∧
    (∀ e r, o1 = Except.error e → o2 = Except.ok r →
      makeRequest [o1, o2, o3] 5000 = (Except.ok (some r), 2, [5000])) ∧
    (∀ e1 e2 r, o1 = Except.error e1 → o2 = Except.error e2 → o3 = Except.ok r →
      makeRequest [o1, o2, o3] 5000 = (Except.ok (some r), 3, [5000, 5000])) ∧
    (∀ e1 e2 e3, o1 = Except.error e1 → o2 = Except.error e2 → o3 = Except.error e3 →
      makeRequest [o1, o2, o3] 5000 = (Except.error e3, 3, [5000, 5000])) := by
  refine ⟨?_, ?_, ?_, ?_, ?_⟩
  · cases o1 <;> cases o2 <;> cases o3 <;> simp [makeRequest]
  · intro r h
    subst h
    simp [makeRequest]
  · intro e r h1 h2
    subst h1; subst h2
    simp [makeRequest]
  · intro e1 e2 r h1 h2 h3
    subst h1; subst h2; subst h3
    simp [makeRequest]
  · intro e1 e2 e3 h1 h2 h3
    subst h1; subst h2; subst h3
    simp [makeRequest]

/-- C8 witness: with the first two attempts throwing and the third
succeeding, the caller receives the third attempt's result after two
logged 5000ms delays; with all three throwing, the final error
propagates.  Both instances follow from `makeRequest_retry_spec`. -/
theorem makeRequest_retry_spec_witness :
    makeRequest [Except.error 9, Except.error 8, (Except.ok 7 : Except Nat Nat)] 5000 =
      (Except.ok (some 7), 3, [5000, 5000]) ∧
    makeRequest [Except.error 9, Except.error 8, (Except.error 6 : Except Nat Nat)] 5000 =
      (Except.error 6, 3, [5000, 5000]) := by
  refine ⟨?_, ?_⟩
  · exact (makeRequest_retry_spec Nat Nat (Except.error 9) (Except.error 8)
      (Except.ok 7)).2.2.2.1 9 8 7 rfl rfl rfl
  · exact (makeRequest_retry_spec Nat Nat (Except.error 9) (Except.error 8)
      (Except.error 6)).2.2.2.2 9 8 6 rfl rfl rfl

/-- C9: when the wallet list and the credential-data list differ in
length, `main` exits with status 1 straight after validation: the
network trace is empty (no authenticate, profile, wallet or quest
request) and no account is processed. -/
theorem mainModel_mismatch_spec (wallets dataLines : List String) (m : TokenMap)
    (envs : List AccountEnv) (now : Int)
    (h : wallets.length ≠ dataLines.length) :
    mainModel wallets dataLines m envs now = ⟨some 1, [], 0⟩ := by
  simp [mainModel, validateWalletFile, h]

/-- C6: `ensureValidToken` returns a cached, non-expired token without
authenticating; when the cache misses or the cached token is expired it
authenticates, returns `null` on failure leaving the map untouched (the
caller then just returns, skipping the account without any exception),
and on success stores the new token in the map and returns it. -/
theorem ensureValidToken_spec (m : TokenMap) (uid : Nat) (now : Int)
    (auth : Option Token) (persistOk : Bool) :
    (∀ t, lookupToken m uid = some t → isExpired t now = false →
      ensureValidToken m uid now auth persistOk = ⟨m, some t, false, []⟩) ∧
    ((lookupToken m uid = none ∨
        ∃ t, lookupToken m uid = some t ∧ isExpired t now = true) →
      (ensureValidToken m uid now auth persistOk).authCalled = true ∧
      (auth = none →
        ensureValidToken m uid now auth persistOk = ⟨m, none, true, []⟩) ∧
      (∀ tk, auth = some tk →
        (ensureValidToken m uid now auth persistOk).token = some tk ∧
        lookupToken (ensureValidToken m uid now auth persistOk).tokens uid = some tk)) ∧
    (∀ name info svc qe,
      (ensureValidToken m uid now auth persistOk).token = none →
      processAccount m ⟨some (uid, name), auth, persistOk, info, svc, qe⟩ now =
        Except.ok ((ensureValidToken m uid now auth persistOk).tokens,
          if (ensureValidToken m uid now auth persistOk).authCalled
          then [NetCall.auth] else [])) := by
  refine ⟨?_, ?_, ?_⟩
  · intro t ht hexp
    simp [ensureValidToken, ht, hexp]
  · intro hmiss
    have hbranch : ensureValidToken m uid now auth persistOk =
        match auth with
        | none => ⟨m, none, true, []⟩
        | some tk =>
          let p := saveToken m uid tk persistOk
          ⟨p.1, some tk, true, p.2⟩ := by
      rcases hmiss with hnone | ⟨t, ht, hexp⟩
      · simp [ensureValidToken, hnone]
      · simp [ensureValidToken, ht, hexp]
    refine ⟨?_, ?_, ?_⟩
    · rw [hbranch]; cases auth <;> simp
    · intro ha; subst ha; rw [hbranch]
    · intro tk ha
      subst ha
      rw [hbranch]
      refine ⟨rfl, ?_⟩
      simp only [saveToken]
      cases persistOk <;> simp [lookupToken_setToken_self]
  · intro name info svc qe htok
    simp [processAccount, htok]

/-- C6 witness: with a cached token expiring at epoch 100, a check at
`now = 50` returns the cached token without authenticating; with an
empty cache and a successful authentication, the new token is stored and
returned.  Both follow from `ensureValidToken_spec`. -/
theorem ensureValidToken_spec_witness :
    ensureValidToken [(1, ⟨some ⟨some 100⟩⟩)] 1 50 none true =
      ⟨[(1, ⟨some ⟨some 100⟩⟩)], some ⟨some ⟨some 100⟩⟩, false, []⟩ ∧
    (ensureValidToken [] 1 50 (some ⟨some ⟨some 100⟩⟩) true).token =
      some ⟨some ⟨some 100⟩⟩ ∧
    lookupToken (ensureValidToken [] 1 50 (some ⟨some ⟨some 100⟩⟩) true).tokens 1 =
      some ⟨some ⟨some 100⟩⟩ := by
  have h1 := (ensureValidToken_spec [(1, ⟨some ⟨some 100⟩⟩)] 1 50 none true).1
    ⟨some ⟨some 100⟩⟩ (by rfl) (by decide)
  have h2 := ((ensureValidToken_spec [] 1 50 (some ⟨some ⟨some 100⟩⟩) true).2.1
    (Or.inl (by rfl))).2.2 ⟨some ⟨some 100⟩⟩ rfl
  exact ⟨h1, h2.1, h2.2⟩

/-- C7: when persisting the token file fails, `saveToken` still updates
the in-memory map, logs the persistence error rather than rethrowing,
and a fresh authentication through `ensureValidToken` still yields the
new token for the current run. -/
theorem saveToken_swallow_spec (m : TokenMap) (uid : Nat) (tok : Token) (now : Int) :
    (saveToken m uid tok false).1 = setToken m uid tok ∧
    lookupToken (saveToken m uid tok false).1 uid = some tok ∧
    (saveToken m uid tok false).2 = [LogEvent.persistError] ∧
    (lookupToken m uid = none →
      ensureValidToken m uid now (some tok) false =
        ⟨setToken m uid tok, some tok, true, [LogEvent.persistError]⟩) := by
  refine ⟨rfl, ?_, rfl, ?_⟩
  · simp [saveToken, lookupToken_setToken_self]
  · intro hmiss
    simp [ensureValidToken, hmiss, saveToken]

/-- C7 witness: with an empty cache, user 1's newly authenticated token
survives a failed persistence: the map holds it, the failure is logged,
and the token is returned, by `saveToken_swallow_spec`. -/
theorem saveToken_swallow_spec_witness :
    lookupToken (saveToken [] 1 ⟨some ⟨none⟩⟩ false).1 1 = some ⟨some ⟨none⟩⟩ ∧
    (saveToken [] 1 ⟨some ⟨none⟩⟩ false).2 = [LogEvent.persistError] ∧
    ensureValidToken [] 1 0 (some ⟨some ⟨none⟩⟩) false =
      ⟨[(1, ⟨some ⟨none⟩⟩)], some ⟨some ⟨none⟩⟩, true, [LogEvent.persistError]⟩ := by
  have h := saveToken_swallow_spec [] 1 ⟨some ⟨none⟩⟩ 0
  exact ⟨h.2.1, h.2.2.1, h.2.2.2 rfl⟩

theorem processQuestsLoop_passed (qs : List Quest) (qenv : Nat → QuestEnv) (i : Nat) :
    (processQuestsLoop qs qenv i).2 = qs := by
  induction qs generalizing i with
  | nil => rfl
  | cons q rest ih => simp [processQuestsLoop, ih]

theorem completeCallIds_processQuestNet (q : Quest) (env : QuestEnv) :
    completeCallIds (processQuestNet q env) = [q.id] := by
  cases h : completeQuest env.completeResp <;>
    simp [processQuestNet, completeCallIds, h, List.filterMap]

theorem completeCallIds_processQuestsLoop (qs : List Quest) (qenv : Nat → QuestEnv)
    (i : Nat) : completeCallIds (processQuestsLoop qs qenv i).1 =
      qs.map (fun q => q.id) := by
  induction qs generalizing i with
  | nil => rfl
  | cons q rest ih =>
    have hnet := completeCallIds_processQuestNet q (qenv i)
    simp [processQuestsLoop, completeCallIds, List.filterMap_append] at *
    simp [hnet, ih]

/-- C10: the quests passed to `completeQuest` by a quest-processing pass
are exactly the service list filtered to `progress.claimed == false`
(also as witnessed by the completion POSTs in the network trace); a
quest with `progress.claimed == true` is never processed. -/
theorem processQuests_claimed_filter_spec (svc : List Quest) (qenv : Nat → QuestEnv) :
    (processQuests (some svc) qenv).passed =
      svc.filter (fun q => !q.progress.claimed) ∧
    (∀ q, q ∈ (processQuests (some svc) qenv).passed → q.progress.claimed = false) ∧
    (∀ q, q ∈ svc → q.progress.claimed = true →
      q ∉ (processQuests (some svc) qenv).passed) ∧
    completeCallIds (processQuests (some svc) qenv).trace =
      (svc.filter (fun q => !q.progress.claimed)).map (fun q => q.id) := by
  have hpassed : (processQuests (some svc) qenv).passed =
      svc.filter (fun q => !q.progress.claimed) := by
    simp [processQuests, getQuestsList, processQuestsLoop_passed]
  refine ⟨hpassed, ?_, ?_, ?_⟩
  · intro q hq
    rw [hpassed] at hq
    simpa using (List.mem_filter.mp hq).2
  · intro q _ hclaimed hq
    rw [hpassed] at hq
    have := (List.mem_filter.mp hq).2
    simp [hclaimed] at this
  · have htr : (processQuests (some svc) qenv).trace =
        NetCall.questsList ::
          (processQuestsLoop (List.filter (fun q => !q.progress.claimed) svc) qenv 0).1 := by
      simp [processQuests, getQuestsList]
    rw [htr]
    have h2 := completeCallIds_processQuestsLoop
      (List.filter (fun q => !q.progress.claimed) svc) qenv 0
    simpa [completeCallIds] using h2

/-- C10 witness: of a two-quest service list with the first quest already
claimed, only the second is passed to `completeQuest`, and the claimed
one never is, by `processQuests_claimed_filter_spec`. -/
theorem processQuests_claimed_filter_spec_witness :
    (processQuests (some [⟨1, "a", [5], ⟨true⟩⟩, ⟨2, "b", [7], ⟨false⟩⟩])
      (fun _ => ⟨Except.error (), Except.error ()⟩)).passed = [⟨2, "b", [7], ⟨false⟩⟩] ∧
    (⟨1, "a", [5], ⟨true⟩⟩ : Quest) ∉
      (processQuests (some [⟨1, "a", [5], ⟨true⟩⟩, ⟨2, "b", [7], ⟨false⟩⟩])
        (fun _ => ⟨Except.error (), Except.error ()⟩)).passed ∧
    completeCallIds (processQuests (some [⟨1, "a", [5], ⟨true⟩⟩, ⟨2, "b", [7], ⟨false⟩⟩])
      (fun _ => ⟨Except.error (), Except.error ()⟩)).trace = [2] := by
  have h := processQuests_claimed_filter_spec
    [⟨1, "a", [5], ⟨true⟩⟩, ⟨2, "b", [7], ⟨false⟩⟩]
    (fun _ => ⟨Except.error (), Except.error ()⟩)
  refine ⟨?_, ?_, ?_⟩
  · rw [h.1]; rfl
  · exact h.2.2.1 ⟨1, "a", [5], ⟨true⟩⟩ (by simp) rfl
  · rw [h.2.2.2]; rfl

theorem processAccount_ok_of_parsed (m : TokenMap) (e : AccountEnv) (now : Int)
    (h : e.parsed ≠ none) :
    ∃ v, processAccount m e now = Except.ok v := by
  rcases hp : e.parsed with _ | ⟨uid, name⟩
  · exact absurd hp h
  · rcases ht : (ensureValidToken m uid now e.authOutcome e.persistOk).token with _ | tk
    · exact ⟨_, by simp only [processAccount, hp, ht]; rfl⟩
    · exact ⟨_, by simp only [processAccount, hp, ht]; rfl⟩

theorem runCycle_crash (bad : AccountEnv) (rest : List AccountEnv) (now : Int)
    (hbad : bad.parsed = none) :
    ∀ (good : List AccountEnv) (m : TokenMap), (∀ e ∈ good, e.parsed ≠ none) →
      (runCycle m (good ++ bad :: rest) now).crashed = true ∧
      (runCycle m (good ++ bad :: rest) now).accountsProcessed = good.length := by
  intro good
  induction good with
  | nil =>
    intro m _
    have hb : processAccount m bad now = Except.error () := by
      simp [processAccount, hbad]
    simp [runCycle, hb]
  | cons e gs ih =>
    intro m hgood
    obtain ⟨v, hok⟩ := processAccount_ok_of_parsed m e now
      (hgood e (List.mem_cons_self _ _))
    obtain ⟨m', tr⟩ := v
    have ihh := ih m' (fun x hx => hgood x (List.mem_cons_of_mem _ hx))
    simp [runCycle, hok, ihh.1, ihh.2]

/-- C1 (counterexample): a two-account batch whose first credential blob
fails to parse.  The claim demands that the parse failure be caught, the
account skipped, and the second account processed; instead the exception
escapes `processAccount`, the cycle aborts with zero accounts processed,
and the top-level handler exits the process with status 1. -/
theorem malformed_blob_counterexample :
    mainModel ["w1", "w2"] ["d1", "d2"] []
      [⟨none, none, true, none, none, fun _ => ⟨Except.error (), Except.error ()⟩⟩,
       ⟨some (2, "B"), some ⟨some ⟨none⟩⟩, true, none, none,
        fun _ => ⟨Except.error (), Except.error ()⟩⟩]
      0 = ⟨some 1, [], 0⟩ := by
  rfl

/-- C1 (amended): a malformed credential blob is not caught per account:
the parse error thrown in `processAccount` propagates through the account
loop — aborting the cycle right there, so only the accounts before it are
processed — and reaches the top-level handler, which logs it and exits
the process with status 1. -/
theorem malformed_blob_aborts_batch (good : List AccountEnv) (bad : AccountEnv)
    (rest : List AccountEnv) (m : TokenMap) (now : Int)
    (wallets dataLines : List String)
    (hgood : ∀ e ∈ good, e.parsed ≠ none) (hbad : bad.parsed = none)
    (hv : validateWalletFile wallets dataLines = true) :
    (runCycle m (good ++ bad :: rest) now).crashed = true ∧
    (runCycle m (good ++ bad :: rest) now).accountsProcessed = good.length ∧
    (mainModel wallets dataLines m (good ++ bad :: rest) now).exitCode = some 1 ∧
    (mainModel wallets dataLines m (good ++ bad :: rest) now).accountsProcessed =
      good.length := by
  have h := runCycle_crash bad rest now hbad good m hgood
  refine ⟨h.1, h.2, ?_, ?_⟩
  · simp [mainModel, hv, h.1]
  · simp [mainModel, hv, h.2]

/-- C1 witness: a healthy first account followed by a malformed second
one: the cycle crashes after one processed account and the process exits
with status 1, by `malformed_blob_aborts_batch`. -/
theorem malformed_blob_aborts_batch_witness :
    (mainModel ["w1", "w2"] ["d1", "d2"] []
      [⟨some (1, "A"), some ⟨some ⟨none⟩⟩, true, none, none,
        fun _ => ⟨Except.error (), Except.error ()⟩⟩,
       ⟨none, none, true, none, none, fun _ => ⟨Except.error (), Except.error ()⟩⟩]
      0).exitCode = some 1 ∧
    (mainModel ["w1", "w2"] ["d1", "d2"] []
      [⟨some (1, "A"), some ⟨some ⟨none⟩⟩, true, none, none,
        fun _ => ⟨Except.error (), Except.error ()⟩⟩,
       ⟨none, none, true, none, none, fun _ => ⟨Except.error (), Except.error ()⟩⟩]
      0).accountsProcessed = 1 := by
  have h := malformed_blob_aborts_batch
    [⟨some (1, "A"), some ⟨some ⟨none⟩⟩, true, none, none,
      fun _ => ⟨Except.error (), Except.error ()⟩⟩]
    ⟨none, none, true, none, none, fun _ => ⟨Except.error (), Except.error ()⟩⟩
    [] [] 0 ["w1", "w2"] ["d1", "d2"]
    (by
      intro e he
      rw [List.mem_singleton] at he
      subst he
      simp)
    rfl rfl
  exact ⟨h.2.2.1, h.2.2.2⟩

/-- C2 (counterexample): a quest with an empty `rewards` array, in the
NeedsClaim state, whose claim POST yields a truthy response.  The claim
demands success and a Done transition; instead `rewards[0].amount`
throws, the catch block returns `{success:false}`, and the quest ends
Failed. -/
theorem claimQuest_truthy_counterexample :
    claimQuest (Except.ok (some ())) ⟨1, "quest", [], ⟨false⟩⟩ = false ∧
    processQuest ⟨1, "quest", [], ⟨false⟩⟩
      ⟨Except.ok ⟨200, false, BodyData.btrue⟩, Except.ok (some ())⟩ =
      (1, QuestState.failed) := by
  exact ⟨rfl, rfl⟩

/-- C2 (amended): `claimQuest` treats a truthy response as success — and
the quest then transitions to Done — provided the quest's reward list is
non-empty (the success path reads `rewards[0].amount` for logging, which
throws on an empty list and is caught as failure); it returns failure
when the response is absent, when the transport call throws, or when the
reward list is empty. -/
theorem claimQuest_spec (resp : Except Unit (Option Unit)) (q : Quest) :
    (∀ u, resp = Except.ok (some u) → q.rewards ≠ [] → claimQuest resp q = true) ∧
    (∀ u, resp = Except.ok (some u) → q.rewards = [] → claimQuest resp q = false) ∧
    (resp = Except.ok none → claimQuest resp q = false) ∧
    (∀ e, resp = Except.error e → claimQuest resp q = false) ∧
    (∀ env : QuestEnv, completeQuest env.completeResp = CompleteResult.needsClaim →
      claimQuest env.claimResp q = true → processQuest q env = (1, QuestState.done)) := by
  refine ⟨?_, ?_, ?_, ?_, ?_⟩
  · intro u h hr
    subst h
    simp [claimQuest, hr]
  · intro u h hr
    subst h
    simp [claimQuest, hr]
  · intro h
    subst h
    rfl
  · intro e h
    subst h
    rfl
  · intro env h1 h2
    simp [processQuest, h1, h2]

/-- C2 witness: with a truthy claim response and a one-reward quest, the
claim succeeds and the NeedsClaim quest ends Done, by `claimQuest_spec`. -/
theorem claimQuest_spec_witness :
    claimQuest (Except.ok (some ())) ⟨1, "quest", [3], ⟨false⟩⟩ = true ∧
    processQuest ⟨1, "quest", [3], ⟨false⟩⟩
      ⟨Except.ok ⟨200, false, BodyData.btrue⟩, Except.ok (some ())⟩ =
      (1, QuestState.done) := by
  have h := claimQuest_spec (Except.ok (some ())) ⟨1, "quest", [3], ⟨false⟩⟩
  have h1 := h.1 () rfl (by decide)
  have h2 := (claimQuest_spec
      (⟨Except.ok ⟨200, false, BodyData.btrue⟩, Except.ok (some ())⟩ : QuestEnv).claimResp
      ⟨1, "quest", [3], ⟨false⟩⟩).2.2.2.2
    ⟨Except.ok ⟨200, false, BodyData.btrue⟩, Except.ok (some ())⟩ rfl
  exact ⟨h1, h2 h1⟩

/-- C4 (counterexample): `completeQuest` receives `(200, success=false,
data=true)` but the subsequent claim POST throws.  The claim demands the
quest be marked Done; instead `claimQuest` is called once, fails, and the
quest ends Failed. -/
theorem processQuest_claim_error_counterexample :
    processQuest ⟨1, "quest", [5], ⟨false⟩⟩
      ⟨Except.ok ⟨200, false, BodyData.btrue⟩, Except.error ()⟩ =
      (1, QuestState.failed) := by
  rfl

/-- C4 (amended): on a 200/201 response with the success flag false and
body `data === true`, the engine calls `claimQuest` exactly once, and the
quest is marked Done exactly when that claim call succeeds (otherwise it
ends Failed); whenever the response body carries `data === false`,
`claimQuest` is never called. -/
theorem processQuest_spec (q : Quest) (env : QuestEnv) :
    (∀ s, env.completeResp = Except.ok ⟨s, false, BodyData.btrue⟩ →
      s = 200 ∨ s = 201 →
      (processQuest q env).1 = 1 ∧
      ((processQuest q env).2 = QuestState.done ↔ claimQuest env.claimResp q = true)) ∧
    (∀ r, env.completeResp = Except.ok r → r.data = BodyData.bfalse →
      (processQuest q env).1 = 0) := by
  constructor
  · intro s h hs
    have hneeds : completeQuest env.completeResp = CompleteResult.needsClaim := by
      rcases hs with hs | hs <;> subst hs <;> simp [completeQuest, h]
    by_cases hc : claimQuest env.claimResp q = true
    · simp [processQuest, hneeds, hc]
    · simp [processQuest, hneeds, hc]
  · intro r h hr
    obtain ⟨st, su, da⟩ := r
    simp only at hr
    subst hr
    cases su with
    | false =>
      by_cases hst : st = 200 ∨ st = 201 <;>
        simp [processQuest, completeQuest, h, hst]
    | true =>
      by_cases hst : st = 200 ∨ st = 201 <;>
        simp [processQuest, completeQuest, h, hst]

/-- C4 witness: with `(200, success=false, data=true)` and a successful
claim call the quest is claimed once and ends Done; with body
`data === false` no claim call is made; both by `processQuest_spec`. -/
theorem processQuest_spec_witness :
    (processQuest ⟨1, "quest", [5], ⟨false⟩⟩
      ⟨Except.ok ⟨200, false, BodyData.btrue⟩, Except.ok (some ())⟩).1 = 1 ∧
    (processQuest ⟨1, "quest", [5], ⟨false⟩⟩
      ⟨Except.ok ⟨200, false, BodyData.btrue⟩, Except.ok (some ())⟩).2 =
      QuestState.done ∧
    (processQuest ⟨1, "quest", [5], ⟨false⟩⟩
      ⟨Except.ok ⟨200, false, BodyData.bfalse⟩, Except.ok (some ())⟩).1 = 0 := by
  have h1 := (processQuest_spec ⟨1, "quest", [5], ⟨false⟩⟩
    ⟨Except.ok ⟨200, false, BodyData.btrue⟩, Except.ok (some ())⟩).1 200 rfl (Or.inl rfl)
  have h2 := (processQuest_spec ⟨1, "quest", [5], ⟨false⟩⟩
    ⟨Except.ok ⟨200, false, BodyData.bfalse⟩, Except.ok (some ())⟩).2
    ⟨200, false, BodyData.bfalse⟩ rfl rfl
  exact ⟨h1.1, h1.2.mpr rfl, h2⟩

/-- C5 (counterexample): a raw payload missing `gameData` (but otherwise
well-formed) is accepted by the HTTP-level checks, yet normalization is
not total on it: `gameData.balance` throws a TypeError, modelled as
`Except.error`, so no AccountProfile results at all. -/
theorem extractUserData_counterexample :
    extractUserData ⟨none, some ⟨"u", "f", none⟩, none, none⟩ = Except.error () := by
  rfl

/-- C5 (amended): normalization succeeds exactly when the raw payload
carries both `gameData` and `userData`; in that case every allocation
sub-field absent from the payload defaults to its documented zero-value
structure (missing `allocationData.dogs` yields `{initial:0,
converted:0, percent:0}`), while the claim-streak fields stay absent
when `claimStreakData` is missing and `wallet` passes through nullable;
a payload missing `gameData` or `userData` makes `extractUserData`
throw (caught by its callers, which report failure). -/
theorem extractUserData_spec (u : RawUserData) (g : GameData) (ui : UserInfoData)
    (hg : u.gameData = some g) (hu : u.userData = some ui) :
    (∃ prof, extractUserData u = Except.ok prof) ∧
    (∀ prof, extractUserData u = Except.ok prof →
      prof.balance = g.balance ∧ prof.wallet = ui.wallet ∧
      (u.allocationData = none →
        prof.allocation = ⟨⟨0, 0⟩, ⟨false, 0, 0, 0⟩, ⟨0⟩, ⟨0, 0, 0⟩, ⟨0, 0, none⟩, 0⟩) ∧
      (∀ ad, u.allocationData = some ad → ad.dogs = none →
        prof.allocation.dogs = ⟨0, 0, 0⟩) ∧
      (u.claimStreakData = none → prof.claimStreak = ⟨none, none⟩)) ∧
    (∀ v : RawUserData, v.gameData = none ∨ v.userData = none →
      extractUserData v = Except.error ()) := by
  obtain ⟨gd, ud, cs, ad⟩ := u
  simp only at hg hu
  subst hg
  subst hu
  refine ⟨⟨_, rfl⟩, ?_, ?_⟩
  · intro prof hp
    have hprof : prof =
        ⟨g.balance, ui.username, ui.firstname, ui.wallet,
          ⟨cs.bind (fun c => c.lastClaimDate), cs.bind (fun c => c.claimStreak)⟩,
          ⟨(ad.bind (fun a => a.hamster)).getD ⟨0, 0⟩,
           (ad.bind (fun a => a.telegram)).getD ⟨false, 0, 0, 0⟩,
           (ad.bind (fun a => a.paws)).getD ⟨0⟩,
           (ad.bind (fun a => a.dogs)).getD ⟨0, 0, 0⟩,
           (ad.bind (fun a => a.notcoin)).getD ⟨0, 0, none⟩,
           (ad.bind (fun a => a.total)).getD 0⟩⟩ := by
      simpa [extractUserData] using hp.symm
    subst hprof
    refine ⟨rfl, rfl, ?_, ?_, ?_⟩
    · intro hadn
      subst hadn
      rfl
    · intro a hada hdogs
      subst hada
      simp [hdogs]
    · intro hcsn
      subst hcsn
      rfl
  · intro v hv
    obtain ⟨vg, vu, vcs, vad⟩ := v
    rcases hv with h | h
    · simp only at h
      subst h
      cases vu <;> rfl
    · simp only at h
      subst h
      cases vg <;> rfl

/-- C5 witness: a payload with `gameData` and `userData` present but no
`allocationData` and no `claimStreakData` normalizes to the fully
defaulted profile, and in particular its `dogs` field is the documented
zero-value structure, by `extractUserData_spec`. -/
theorem extractUserData_spec_witness :
    (∃ prof, extractUserData ⟨some ⟨42⟩, some ⟨"u", "f", none⟩, none, none⟩ =
      Except.ok prof) ∧
    (∀ prof, extractUserData ⟨some ⟨42⟩, some ⟨"u", "f", none⟩, none, none⟩ =
        Except.ok prof →
      prof.allocation.dogs = ⟨0, 0, 0⟩ ∧ prof.balance = 42) := by
  have h := extractUserData_spec ⟨some ⟨42⟩, some ⟨"u", "f", none⟩, none, none⟩
    ⟨42⟩ ⟨"u", "f", none⟩ rfl rfl
  refine ⟨h.1, ?_⟩
  intro prof hp
  have hd := h.2.1 prof hp
  have halloc := hd.2.2.1 rfl
  constructor
  · rw [halloc]
  · exact hd.1

/-- C9 witness: three credential lines against two wallet addresses make
the orchestrator exit with status 1 and an empty network trace, by
`mainModel_mismatch_spec`. -/
theorem mainModel_mismatch_spec_witness :
    mainModel ["w1", "w2"] ["d1", "d2", "d3"] [] [] 0 = ⟨some 1, [], 0⟩ :=
  mainModel_mismatch_spec ["w1", "w2"] ["d1", "d2", "d3"] [] [] 0 (by decide)
